import Mathlib

/-!
Verification development for the overlay text-render pipeline in `src/lib.rs`.

Shallow embedding notes:
* `f32` values are idealized as exact rationals extended with IEEE-style
  infinities and NaN (type `F` below).  Rounding is not modelled; none of the
  properties proved here depends on rounding, only on exact values, signs and
  (non-)finiteness.  Signed zeros are idealized: a zero divisor behaves as `+0`,
  so `fin a / fin 0` carries the sign of `a`.  None of the statements below
  depends on the sign of an infinity, only on non-finiteness.
* The tangent function used by the projection (`(0.5 * fov_rad).tan()` in the
  source) is transcendental and is therefore supplied as a function parameter
  `tanF : ℚ → ℚ` to the transform; theorems constrain only the values of
  `tanF` that the source actually evaluates.
* External host state (`CSCamera::instance()`, `CSWindowImp::instance()`,
  `RendMan::instance()`) is modelled as `Option`/`Bool` snapshots; `Err`
  results of `instance()` are `none`/`false`.
* Rust `String`s are modelled as lists of Unicode code points (`List ℕ`).
-/

/-- Idealized `f32` value: an exact rational, `+∞`, `-∞`, or NaN. -/
inductive F where
  | fin : ℚ → F
  | pinf : F
  | ninf : F
  | nan : F
deriving DecidableEq

namespace F

/-- Models `f32::is_finite`. -/
def isFinite : F → Bool
  | fin _ => true
  | _ => false

/-- IEEE negation. -/
def neg : F → F
  | fin r => fin (-r)
  | pinf => ninf
  | ninf => pinf
  | nan => nan

/-- IEEE addition (NaN absorbing, `+∞ + -∞ = NaN`). -/
def add : F → F → F
  | nan, _ => nan
  | fin _, nan => nan
  | pinf, nan => nan
  | ninf, nan => nan
  | fin a, fin b => fin (a + b)
  | fin _, pinf => pinf
  | fin _, ninf => ninf
  | pinf, fin _ => pinf
  | ninf, fin _ => ninf
  | pinf, pinf => pinf
  | ninf, ninf => ninf
  | pinf, ninf => nan
  | ninf, pinf => nan

/-- IEEE subtraction. -/
def sub (a b : F) : F := add a (neg b)

/-- IEEE multiplication (`0 * ±∞ = NaN`). -/
def mul : F → F → F
  | nan, _ => nan
  | fin _, nan => nan
  | pinf, nan => nan
  | ninf, nan => nan
  | fin a, fin b => fin (a * b)
  | fin a, pinf => if 0 < a then pinf else if a < 0 then ninf else nan
  | fin a, ninf => if 0 < a then ninf else if a < 0 then pinf else nan
  | pinf, fin b => if 0 < b then pinf else if b < 0 then ninf else nan
  | ninf, fin b => if 0 < b then ninf else if b < 0 then pinf else nan
  | pinf, pinf => pinf
  | ninf, ninf => pinf
  | pinf, ninf => ninf
  | ninf, pinf => ninf

/-- IEEE division; a zero divisor is idealized as `+0`, `±∞ / ±∞ = NaN`,
`finite / ±∞ = 0`. -/
def div : F → F → F
  | nan, _ => nan
  | fin _, nan => nan
  | pinf, nan => nan
  | ninf, nan => nan
  | fin a, fin b =>
      if b = 0 then (if 0 < a then pinf else if a < 0 then ninf else nan)
      else fin (a / b)
  | fin _, pinf => fin 0
  | fin _, ninf => fin 0
  | pinf, fin b => if b < 0 then ninf else pinf
  | ninf, fin b => if b < 0 then pinf else ninf
  | pinf, pinf => nan
  | pinf, ninf => nan
  | ninf, pinf => nan
  | ninf, ninf => nan

/-- Models the branch condition `z_cam <= 0.0` (false on NaN, as in IEEE). -/
def le0 : F → Bool
  | fin r => decide (r ≤ 0)
  | pinf => false
  | ninf => true
  | nan => false

end F

/-- A 3-component vector of finite camera-state scalars. -/
structure Vec3q where
  x : ℚ
  y : ℚ
  z : ℚ
deriving DecidableEq

/-- Snapshot of `cam.pers_cam_1`: position, orthonormal basis accessors
`right()/up()/forward()`, vertical `fov` (radians) and `aspect_ratio`. -/
structure CSPersCam where
  position : Vec3q
  right : Vec3q
  up : Vec3q
  forward : Vec3q
  fov : ℚ
  aspect_ratio : ℚ
deriving DecidableEq

/-- Dot product (nalgebra) of a finite camera vector with a possibly
non-finite relative position, in source summation order. -/
def dot3 (v : Vec3q) (a b c : F) : F :=
  (((F.fin v.x).mul a).add ((F.fin v.y).mul b)).add ((F.fin v.z).mul c)

/-- The camera-space depth `z_cam = cam_forward_v.dot(&(world_pos - cam_pos))`. -/
def zCam (cam : CSPersCam) (x y z : F) : F :=
  dot3 cam.forward (x.sub (F.fin cam.position.x)) (y.sub (F.fin cam.position.y))
    (z.sub (F.fin cam.position.z))

/-- Window type variants (`CSWindowType`) of the persistent window config. -/
inductive CSWindowType where
  | Windowed
  | Fullscreen
  | Borderless
deriving DecidableEq

/-- The fields of `persistent_window_config` read by the source. -/
structure PersistentWindowConfig where
  window_type : CSWindowType
  windowed_screen_width : ℚ
  windowed_screen_height : ℚ
  fullscreen_width : ℚ
  fullscreen_height : ℚ
  borderless_screen_width : ℚ
  borderless_screen_height : ℚ
deriving DecidableEq

/-- The fields of `CSWindowImp` read by the source (integer sizes cast to
`f32`, hence always finite). -/
structure CSWindowImp where
  screen_width : ℚ
  screen_height : ℚ
  persistent_window_config : PersistentWindowConfig
deriving DecidableEq

/-- Model of `DebugTextRender::window_size`: physical render-target size, falling back
to 1920×1080 when `CSWindowImp::instance()` is unavailable. -/
def window_size : Option CSWindowImp → ℚ × ℚ
  | some w => (w.screen_width, w.screen_height)
  | none => (1920, 1080)

/-- Model of `DebugTextRender::window_resolution`: configured logical resolution for the
active display mode, falling back to 1920×1080 when unavailable. -/
def window_resolution : Option CSWindowImp → ℚ × ℚ
  | some w =>
    match w.persistent_window_config.window_type with
    | .Windowed =>
        (w.persistent_window_config.windowed_screen_width,
         w.persistent_window_config.windowed_screen_height)
    | .Fullscreen =>
        (w.persistent_window_config.fullscreen_width,
         w.persistent_window_config.fullscreen_height)
    | .Borderless =>
        (w.persistent_window_config.borderless_screen_width,
         w.persistent_window_config.borderless_screen_height)
  | none => (1920, 1080)

/-- Coordinate-mode variants (`EzDrawTextCoordMode`) matched by the source. -/
inductive EzDrawTextCoordMode where
  | HavokPosition2
  | HavokPosition3
  | ScreenSpace0
  | ScreenSpace1
  | Normalized4k
  | Normalized1080p
deriving DecidableEq

/-- The `HavokPosition2/3` branch of `render` (lines 153–193): relative
position, camera-space projection with NaN sentinel for `z_cam <= 0`,
perspective divide and viewport mapping against the physical window size. -/
def worldProject (tanF : ℚ → ℚ) (cam : CSPersCam) (win : Option CSWindowImp)
    (x y z : F) : F × F :=
  let z_cam := zCam cam x y z
  if z_cam.le0 then (F.nan, F.nan)
  else
    let relx := x.sub (F.fin cam.position.x)
    let rely := y.sub (F.fin cam.position.y)
    let relz := z.sub (F.fin cam.position.z)
    let x_cam := dot3 cam.right relx rely relz
    let y_cam := dot3 cam.up relx rely relz
    let m11 := (F.fin 1).div (F.fin (tanF (1/2 * cam.fov)))
    let m00 := m11.div (F.fin cam.aspect_ratio)
    let ndc_x := (x_cam.mul m00).div z_cam
    let ndc_y := (y_cam.mul m11).div z_cam
    let screen_size := window_size win
    (((ndc_x.mul (F.fin (1/2))).add (F.fin (1/2))).mul (F.fin screen_size.1),
     ((ndc_y.mul (F.fin (-(1/2)))).add (F.fin (1/2))).mul (F.fin screen_size.2))

/-- The full coordinate-transform match of `render` (lines 153–214).
`none` models the `CSCamera::instance().unwrap()` panic on an unavailable
camera (only reachable in the world-projected modes). -/
def transform (tanF : ℚ → ℚ) (cam? : Option CSPersCam)
    (win : Option CSWindowImp) (mode : EzDrawTextCoordMode) (x y z : F) :
    Option (F × F) :=
  match mode with
  | .HavokPosition2 | .HavokPosition3 =>
    match cam? with
    | none => none
    | some cam => some (worldProject tanF cam win x y z)
  | .ScreenSpace0 | .ScreenSpace1 =>
    let resolution := window_resolution win
    let size := window_size win
    let scale_x := (F.fin size.1).div (F.fin resolution.1)
    let scale_y := (F.fin size.2).div (F.fin resolution.2)
    some (x.mul scale_x, y.mul scale_y)
  | .Normalized4k =>
    let screen_size := window_resolution win
    some (x.mul (F.fin (screen_size.1 / 3840)), y.mul (F.fin (screen_size.2 / 2160)))
  | .Normalized1080p =>
    let screen_size := window_resolution win
    some (x.mul (F.fin (screen_size.1 / 1920)), y.mul (F.fin (screen_size.2 / 1080)))

/-- Queued draw command (`DrawCommand`); text content as Unicode code points. -/
inductive DrawCommand where
  | Text : List ℕ → F → F → F → EzDrawTextCoordMode → DrawCommand
  | SetOffset : F → F → DrawCommand
deriving DecidableEq

/-- One overlay text surface issued by the consumer at a pixel position. -/
structure Draw where
  text : List ℕ
  pos : F × F
deriving DecidableEq

/-- Result of processing one queued command: either the `unwrap` panic, or the
updated pending offset together with an optional issued draw. -/
inductive StepResult where
  | panicked : StepResult
  | next : F × F → Option Draw → StepResult
deriving DecidableEq

/-- Processing of one command in the `while let Some(event)` loop body
(lines 147–272): `SetOffset` overwrites the pending offset; `Text` transforms,
skips on a non-finite result, otherwise adds the pending offset to the
position, resets the offset to `(0, 0)` and issues the draw. -/
def step (tanF : ℚ → ℚ) (cam? : Option CSPersCam) (win : Option CSWindowImp)
    (off : F × F) : DrawCommand → StepResult
  | .SetOffset a b => .next (a, b) none
  | .Text t x y z mode =>
    match transform tanF cam? win mode x y z with
    | none => .panicked
    | some (new_x, new_y) =>
      if new_x.isFinite && new_y.isFinite then
        .next (F.fin 0, F.fin 0) (some ⟨t, (new_x.add off.1, new_y.add off.2)⟩)
      else
        .next off none

/-- Result of draining one frame's queue: the draws issued before a panic, or
the final pending offset together with all issued draws. -/
inductive DrainResult where
  | panicked : List Draw → DrainResult
  | done : F × F → List Draw → DrainResult
deriving DecidableEq

/-- Draining the queue front-to-back through `step`. -/
def drain (tanF : ℚ → ℚ) (cam? : Option CSPersCam) (win : Option CSWindowImp)
    (off : F × F) : List DrawCommand → DrainResult
  | [] => .done off []
  | c :: rest =>
    match step tanF cam? win off c with
    | .panicked => .panicked []
    | .next off' d =>
      match drain tanF cam? win off' rest with
      | .panicked ds => .panicked (d.toList ++ ds)
      | .done offF ds => .done offF (d.toList ++ ds)

/-- Per-frame snapshot of the host state read by `render`: the tangent
function, camera, window, and whether `RendMan::instance()` succeeded. -/
structure Env where
  tanF : ℚ → ℚ
  camera : Option CSPersCam
  window : Option CSWindowImp
  rendMan : Bool

/-- One invocation of `DebugTextRender::render`: when `RendMan` is unavailable
the frame returns early (offset state untouched); otherwise the queue is
drained.  The consumer-local offset `self.offset` is carried in and out. -/
def render (e : Env) (off : F × F) (cmds : List DrawCommand) : DrainResult :=
  if e.rendMan then drain e.tanF e.camera e.window off cmds else .done off []

/-- Capacity of `TEXT_RENDER_QUEUE`, `ArrayQueue::new(1024 * 10)`. -/
def queueCapacity : ℕ := 1024 * 10

/-- Modelled from the spec: `crossbeam_queue::ArrayQueue::force_push` (the
crate is an external dependency, not in `src/`); on a full queue the oldest
element is evicted to make room, otherwise the element is appended. -/
def force_push (q : List DrawCommand) (c : DrawCommand) : List DrawCommand :=
  if q.length < queueCapacity then q ++ [c] else q.tail ++ [c]

/-- Modelled from the spec: `crossbeam_queue::ArrayQueue::pop` (external
dependency); non-blocking, `none` exactly on the empty queue. -/
def queue_pop : List DrawCommand → Option (DrawCommand × List DrawCommand)
  | [] => none
  | c :: rest => some (c, rest)

/-- UTF-16 decoding as performed by `String::from_utf16`: BMP units verbatim,
well-formed surrogate pairs combined, anything else an error (`none`). -/
def utf16Decode : List ℕ → Option (List ℕ)
  | [] => some []
  | [u] => if u < 0xD800 || 0xDFFF < u then some [u] else none
  | u :: v :: rest =>
    if u < 0xD800 || 0xDFFF < u then (utf16Decode (v :: rest)).map (u :: ·)
    else if u ≤ 0xDBFF && 0xDC00 ≤ v && v ≤ 0xDFFF then
      (utf16Decode rest).map ((0x10000 + (u - 0xD800) * 0x400 + (v - 0xDC00)) :: ·)
    else none

/-- Code points of the fixed placeholder string `"?EncodingError?"`. -/
def encodingErrorPlaceholder : List ℕ :=
  [63, 69, 110, 99, 111, 100, 105, 110, 103, 69, 114, 114, 111, 114, 63]

/-- Model of `u16_ptr_to_string`: memory is a function from indices to `u16` values,
with the null-termination guarantee as hypothesis; the length is the index of
the first null, the slice before it is UTF-16 decoded, and a decoding error is
replaced by the placeholder (`unwrap_or`). -/
def u16_ptr_to_string (mem : ℕ → ℕ) (h : ∃ i, mem i = 0) : List ℕ :=
  let len := Nat.find h
  let slice := (List.range len).map mem
  (utf16Decode slice).getD encodingErrorPlaceholder

/-- Camera at the origin with identity basis (right `+X`, up `+Y`,
forward `+Z`), aspect ratio 1 and the given fov. -/
def camBasic (f : ℚ) : CSPersCam :=
  { position := ⟨0, 0, 0⟩
    right := ⟨1, 0, 0⟩
    up := ⟨0, 1, 0⟩
    forward := ⟨0, 0, 1⟩
    fov := f
    aspect_ratio := 1 }

/-- A window snapshot whose physical size and logical resolution are both
1000×1000. -/
def win1000 : Option CSWindowImp :=
  some { screen_width := 1000
         screen_height := 1000
         persistent_window_config :=
           { window_type := .Windowed
             windowed_screen_width := 1000
             windowed_screen_height := 1000
             fullscreen_width := 1000
             fullscreen_height := 1000
             borderless_screen_width := 1000
             borderless_screen_height := 1000 } }

/-- Environment with no window and no camera, identity tangent, `RendMan`
available. -/
def envNoWin : Env :=
  { tanF := fun q => q, camera := none, window := none, rendMan := true }

/-- Environment with the basic camera at fov 1, no window, constant tangent 1,
`RendMan` available. -/
def envCam : Env :=
  { tanF := fun _ => 1, camera := some (camBasic 1), window := none, rendMan := true }

/-! ### Non-finiteness absorption lemmas for the idealized `f32` arithmetic -/

theorem F.add_nonfinite_left (a b : F) (h : a.isFinite = false) :
    (a.add b).isFinite = false := by
  cases a <;> cases b <;> simp_all [F.add, F.isFinite]

theorem F.add_nonfinite_right (a b : F) (h : b.isFinite = false) :
    (a.add b).isFinite = false := by
  cases a <;> cases b <;> simp_all [F.add, F.isFinite]

theorem F.mul_nonfinite_left (a b : F) (h : a.isFinite = false) :
    (a.mul b).isFinite = false := by
  cases a <;> cases b <;> simp_all [F.mul, F.isFinite] <;> split_ifs <;>
    simp [F.isFinite]

theorem F.mul_nonfinite_right (a b : F) (h : b.isFinite = false) :
    (a.mul b).isFinite = false := by
  cases a <;> cases b <;> simp_all [F.mul, F.isFinite] <;> split_ifs <;>
    simp [F.isFinite]

theorem F.div_nonfinite_left (a b : F) (h : a.isFinite = false) :
    (a.div b).isFinite = false := by
  cases a <;> cases b <;> simp_all [F.div, F.isFinite] <;> split_ifs <;>
    simp [F.isFinite]

theorem F.div_fin_zero_nonfinite (a : F) : (a.div (F.fin 0)).isFinite = false := by
  cases a <;> simp [F.div, F.isFinite]
  split_ifs <;> simp [F.isFinite]

theorem F.sub_nonfinite_left (a b : F) (h : a.isFinite = false) :
    (a.sub b).isFinite = false :=
  F.add_nonfinite_left _ _ h

theorem dot3_nonfinite (v : Vec3q) (a b c : F)
    (h : a.isFinite = false ∨ b.isFinite = false ∨ c.isFinite = false) :
    (dot3 v a b c).isFinite = false := by
  rcases h with h | h | h
  · exact F.add_nonfinite_left _ _
      (F.add_nonfinite_left _ _ (F.mul_nonfinite_right _ _ h))
  · exact F.add_nonfinite_left _ _
      (F.add_nonfinite_right _ _ (F.mul_nonfinite_right _ _ h))
  · exact F.add_nonfinite_right _ _ (F.mul_nonfinite_right _ _ h)

/-! ### Claim theorems -/

/-- Claim C1: for a world-projected (`HavokPosition2`/`HavokPosition3`) text
command, whenever the camera-space depth `z_cam` satisfies `z_cam <= 0`, the
transform produces the non-finite `(NaN, NaN)` sentinel and the consumer skips
the item (no draw, offset untouched), never a finite pixel coordinate. -/
theorem claim_C1_behind_camera_skips (tanF : ℚ → ℚ) (cam : CSPersCam)
    (win : Option CSWindowImp) (off : F × F) (t : List ℕ) (x y z : F)
    (h : (zCam cam x y z).le0 = true) :
    worldProject tanF cam win x y z = (F.nan, F.nan) ∧
    F.nan.isFinite = false ∧
    step tanF (some cam) win off (.Text t x y z .HavokPosition2) = .next off none ∧
    step tanF (some cam) win off (.Text t x y z .HavokPosition3) = .next off none := by
  have hw : worldProject tanF cam win x y z = (F.nan, F.nan) := by
    simp [worldProject, h]
  refine ⟨hw, rfl, ?_, ?_⟩ <;> simp [step, transform, hw, F.isFinite]

theorem claim_C1_witness :
    (zCam (camBasic 1) (F.fin 0) (F.fin 0) (F.fin (-1))).le0 = true ∧
    worldProject (fun q => q) (camBasic 1) win1000 (F.fin 0) (F.fin 0) (F.fin (-1))
      = (F.nan, F.nan) :=
  ⟨by norm_num [zCam, dot3, camBasic, F.sub, F.neg, F.add, F.mul, F.le0],
   (claim_C1_behind_camera_skips (fun q => q) (camBasic 1) win1000
      (F.fin 0, F.fin 0) [] (F.fin 0) (F.fin 0) (F.fin (-1))
      (by norm_num [zCam, dot3, camBasic, F.sub, F.neg, F.add, F.mul, F.le0])).1⟩

/-- Claim C2: with the camera at the origin looking down `+Z` (orthonormal
identity basis), aspect ratio 1 and physical window size 1000×1000, the
world-projected transform maps `(0,0,10)` to screen `(500, 500)` and maps
`(0,0,-1)` to the invalid sentinel, so that text is skipped.  The fov enters
only through `tan(fov/2)`; the hypothesis `tanF (fov/2) ≠ 0` holds in
particular at fov = π/2, where `tan(π/4) = 1`. -/
theorem claim_C2_end_to_end (f : ℚ) (tanF : ℚ → ℚ) (ht : tanF (1/2 * f) ≠ 0)
    (off : F × F) (t : List ℕ) :
    worldProject tanF (camBasic f) win1000 (F.fin 0) (F.fin 0) (F.fin 10)
      = (F.fin 500, F.fin 500) ∧
    worldProject tanF (camBasic f) win1000 (F.fin 0) (F.fin 0) (F.fin (-1))
      = (F.nan, F.nan) ∧
    step tanF (some (camBasic f)) win1000 off
        (.Text t (F.fin 0) (F.fin 0) (F.fin (-1)) .HavokPosition2)
      = .next off none := by
  have h2 : worldProject tanF (camBasic f) win1000 (F.fin 0) (F.fin 0) (F.fin (-1))
      = (F.nan, F.nan) := by
    norm_num [worldProject, zCam, dot3, camBasic, F.sub, F.neg, F.add, F.mul,
      F.le0]
  refine ⟨?_, h2, ?_⟩
  · norm_num [worldProject, zCam, dot3, camBasic, win1000, window_size, F.sub,
      F.neg, F.add, F.mul, F.div, F.le0, ht]
  · simp [step, transform, h2, F.isFinite]

theorem claim_C2_witness :
    ((fun _ : ℚ => (1 : ℚ)) (1/2 * (157/100)) ≠ 0) ∧
    worldProject (fun _ => 1) (camBasic (157/100)) win1000
        (F.fin 0) (F.fin 0) (F.fin 10) = (F.fin 500, F.fin 500) :=
  ⟨by norm_num,
   (claim_C2_end_to_end (157/100) (fun _ => 1) (by norm_num)
      (F.fin 0, F.fin 0) []).1⟩

/-- Claim C5 (code bug): when `CSCamera::instance()` is unavailable while a
world-projected text command is processed, the consumer does not skip the
draw — the `.unwrap()` on the camera instance panics. -/
theorem claim_C5_camera_unavailable_panics (tanF : ℚ → ℚ)
    (win : Option CSWindowImp) (off : F × F) (t : List ℕ) (x y z : F) :
    step tanF none win off (.Text t x y z .HavokPosition2) = .panicked ∧
    step tanF none win off (.Text t x y z .HavokPosition3) = .panicked :=
  ⟨rfl, rfl⟩

theorem worldProject_nonfinite_components (tanF : ℚ → ℚ) (cam : CSPersCam)
    (win : Option CSWindowImp) (x y z : F)
    (h : (x.isFinite = false ∨ y.isFinite = false ∨ z.isFinite = false) ∨
         (cam.fov = 0 ∧ tanF 0 = 0) ∨ cam.aspect_ratio = 0) :
    (worldProject tanF cam win x y z).1.isFinite = false ∨
    (worldProject tanF cam win x y z).2.isFinite = false := by
  by_cases hz : (zCam cam x y z).le0 = true
  · simp [worldProject, hz, F.isFinite]
  · rw [Bool.not_eq_true] at hz
    simp only [worldProject, hz, Bool.false_eq_true, if_false]
    rcases h with hin | ⟨hfov, htan⟩ | hasp
    · have hrel : (x.sub (F.fin cam.position.x)).isFinite = false ∨
          (y.sub (F.fin cam.position.y)).isFinite = false ∨
          (z.sub (F.fin cam.position.z)).isFinite = false := by
        rcases hin with h | h | h
        exacts [Or.inl (F.sub_nonfinite_left _ _ h),
          Or.inr (Or.inl (F.sub_nonfinite_left _ _ h)),
          Or.inr (Or.inr (F.sub_nonfinite_left _ _ h))]
      exact Or.inl (F.mul_nonfinite_left _ _ (F.add_nonfinite_left _ _
        (F.mul_nonfinite_left _ _ (F.div_nonfinite_left _ _
          (F.mul_nonfinite_left _ _ (dot3_nonfinite _ _ _ _ hrel))))))
    · have htan0 : tanF (1/2 * cam.fov) = 0 := by rw [hfov, mul_zero, htan]
      have hm11 : ((F.fin 1).div (F.fin (tanF (1/2 * cam.fov)))).isFinite = false := by
        rw [htan0]; norm_num [F.div, F.isFinite]
      exact Or.inr (F.mul_nonfinite_left _ _ (F.add_nonfinite_left _ _
        (F.mul_nonfinite_left _ _ (F.div_nonfinite_left _ _
          (F.mul_nonfinite_right _ _ hm11)))))
    · have hm00 : (((F.fin 1).div (F.fin (tanF (1/2 * cam.fov)))).div
          (F.fin cam.aspect_ratio)).isFinite = false := by
        rw [hasp]; exact F.div_fin_zero_nonfinite _
      exact Or.inl (F.mul_nonfinite_left _ _ (F.add_nonfinite_left _ _
        (F.mul_nonfinite_left _ _ (F.div_nonfinite_left _ _
          (F.mul_nonfinite_right _ _ hm00)))))

/-- Claim C6 (amended): for a world-projected text command, non-finite input
coordinates, a zero field-of-view and a zero aspect ratio all resolve to
"do not draw" (the item is skipped, no error); a strictly negative fov or
aspect ratio, however, is not rejected by the code (see the counterexample). -/
theorem claim_C6_degenerate_inputs_skip (tanF : ℚ → ℚ) (cam : CSPersCam)
    (win : Option CSWindowImp) (off : F × F) (t : List ℕ) (x y z : F)
    (mode : EzDrawTextCoordMode)
    (hm : mode = .HavokPosition2 ∨ mode = .HavokPosition3)
    (h : (x.isFinite = false ∨ y.isFinite = false ∨ z.isFinite = false) ∨
         (cam.fov = 0 ∧ tanF 0 = 0) ∨ cam.aspect_ratio = 0) :
    step tanF (some cam) win off (.Text t x y z mode) = .next off none := by
  have hw := worldProject_nonfinite_components tanF cam win x y z h
  rcases hww : worldProject tanF cam win x y z with ⟨p, q⟩
  rw [hww] at hw
  rcases hm with hm | hm <;> subst hm <;> rcases hw with h' | h' <;>
    simp_all [step, transform, hww]

theorem claim_C6_witness :
    F.nan.isFinite = false ∧
    step (fun q => q) (some (camBasic 1)) none (F.fin 0, F.fin 0)
        (.Text [] F.nan (F.fin 0) (F.fin 0) .HavokPosition2)
      = .next (F.fin 0, F.fin 0) none :=
  ⟨rfl,
   claim_C6_degenerate_inputs_skip (fun q => q) (camBasic 1) none
     (F.fin 0, F.fin 0) [] F.nan (F.fin 0) (F.fin 0) .HavokPosition2
     (Or.inl rfl) (Or.inl (Or.inl rfl))⟩

/-- Claim C6 counterexample: with a strictly negative field-of-view (fov = -1,
whose half-tangent is negative but nonzero, matching the sign of the real
tangent), the transform of a valid in-front point returns a finite coordinate
and the item is drawn — refuting "zero or negative field-of-view … resolve to
do not draw". -/
theorem claim_C6_counterexample :
    ((-1 : ℚ) < 0) ∧
    worldProject (fun q => q) (camBasic (-1)) win1000 (F.fin 0) (F.fin 0) (F.fin 10)
      = (F.fin 500, F.fin 500) ∧
    step (fun q => q) (some (camBasic (-1))) win1000 (F.fin 0, F.fin 0)
        (.Text [65] (F.fin 0) (F.fin 0) (F.fin 10) .HavokPosition2)
      = .next (F.fin 0, F.fin 0) (some ⟨[65], (F.fin 500, F.fin 500)⟩) := by
  have hw : worldProject (fun q => q) (camBasic (-1)) win1000
      (F.fin 0) (F.fin 0) (F.fin 10) = (F.fin 500, F.fin 500) := by
    norm_num [worldProject, zCam, dot3, camBasic, win1000, window_size, F.sub,
      F.neg, F.add, F.mul, F.div, F.le0]
  refine ⟨by norm_num, hw, ?_⟩
  norm_num [step, transform, hw, F.isFinite, F.add]

/-- Helper: the `ScreenSpace0/1` transform of the origin is the origin whenever
the logical resolution is nonzero. -/
theorem transform_screenspace_zero (tanF : ℚ → ℚ) (cam? : Option CSPersCam)
    (win : Option CSWindowImp) (z : F)
    (h1 : (window_resolution win).1 ≠ 0) (h2 : (window_resolution win).2 ≠ 0) :
    transform tanF cam? win .ScreenSpace0 (F.fin 0) (F.fin 0) z
      = some (F.fin 0, F.fin 0) := by
  simp [transform, F.div, F.mul, h1, h2]

/-- Claim C3: a `SetOffset` affects exactly the next `Text` command.  Draining
`SetOffset(5,5); Text "A"; Text "B"` (both texts at the `NativeScreen` origin)
draws "A" at base+(5,5) and "B" at base+(0,0), and the consumer offset is back
to (0,0) afterwards. -/
theorem claim_C3_offset_affects_one_text (e : Env) (off : F × F)
    (hr : e.rendMan = true)
    (h1 : (window_resolution e.window).1 ≠ 0)
    (h2 : (window_resolution e.window).2 ≠ 0) :
    render e off
        [.SetOffset (F.fin 5) (F.fin 5),
         .Text [65] (F.fin 0) (F.fin 0) (F.fin 0) .ScreenSpace0,
         .Text [66] (F.fin 0) (F.fin 0) (F.fin 0) .ScreenSpace0]
      = .done (F.fin 0, F.fin 0)
          [⟨[65], (F.fin 5, F.fin 5)⟩, ⟨[66], (F.fin 0, F.fin 0)⟩] := by
  have ht := transform_screenspace_zero e.tanF e.camera e.window (F.fin 0) h1 h2
  simp [render, hr, drain, step, ht, F.isFinite, F.add]

theorem claim_C3_witness :
    envNoWin.rendMan = true ∧
    ((window_resolution envNoWin.window).1 ≠ 0) ∧
    ((window_resolution envNoWin.window).2 ≠ 0) ∧
    render envNoWin (F.fin 0, F.fin 0)
        [.SetOffset (F.fin 5) (F.fin 5),
         .Text [65] (F.fin 0) (F.fin 0) (F.fin 0) .ScreenSpace0,
         .Text [66] (F.fin 0) (F.fin 0) (F.fin 0) .ScreenSpace0]
      = .done (F.fin 0, F.fin 0)
          [⟨[65], (F.fin 5, F.fin 5)⟩, ⟨[66], (F.fin 0, F.fin 0)⟩] :=
  ⟨rfl, by norm_num [window_resolution, envNoWin], by norm_num [window_resolution, envNoWin],
   claim_C3_offset_affects_one_text envNoWin (F.fin 0, F.fin 0) rfl
     (by norm_num [window_resolution, envNoWin]) (by norm_num [window_resolution, envNoWin])⟩

/-- Claim C4 counterexample: the pending offset is a field of the consumer that
is not reset at the end of a drain.  A frame whose queue holds only
`SetOffset(5,5)` ends with offset (5,5), and a later frame's `Text` command is
drawn displaced by that stale offset — refuting "discarded at the end of the
drain, does not carry over". -/
theorem claim_C4_counterexample :
    render envNoWin (F.fin 0, F.fin 0) [.SetOffset (F.fin 5) (F.fin 5)]
      = .done (F.fin 5, F.fin 5) [] ∧
    render envNoWin (F.fin 5, F.fin 5)
        [.Text [65] (F.fin 0) (F.fin 0) (F.fin 0) .ScreenSpace0]
      = .done (F.fin 0, F.fin 0) [⟨[65], (F.fin 5, F.fin 5)⟩] ∧
    ((F.fin 5, F.fin 5) : F × F) ≠ (F.fin 0, F.fin 0) := by
  refine ⟨by simp [render, envNoWin, drain, step], ?_, by norm_num [Prod.ext_iff]⟩
  norm_num [render, envNoWin, drain, step, transform, window_size,
    window_resolution, F.mul, F.div, F.isFinite, F.add]

/-- Claim C4 (amended): the pending offset is not frame-local.  A `SetOffset`
with no following `Text` persists in the consumer state past the end of the
drain, and is applied to the next successfully drawn `Text`, even one
processed in a later frame. -/
theorem claim_C4_offset_carries_over (e e2 : Env) (off : F × F) (dx dy : F)
    (t : List ℕ) (x y z : F) (mode : EzDrawTextCoordMode) (u v : ℚ)
    (h1 : e.rendMan = true) (h2 : e2.rendMan = true)
    (h3 : transform e2.tanF e2.camera e2.window mode x y z
      = some (F.fin u, F.fin v)) :
    render e off [.SetOffset dx dy] = .done (dx, dy) [] ∧
    render e2 (dx, dy) [.Text t x y z mode]
      = .done (F.fin 0, F.fin 0) [⟨t, ((F.fin u).add dx, (F.fin v).add dy)⟩] := by
  constructor
  · simp [render, h1, drain, step]
  · simp [render, h2, drain, step, h3, F.isFinite]

theorem claim_C4_witness :
    envNoWin.rendMan = true ∧
    transform envNoWin.tanF envNoWin.camera envNoWin.window .ScreenSpace0
        (F.fin 0) (F.fin 0) (F.fin 0) = some (F.fin 0, F.fin 0) ∧
    render envNoWin (F.fin 0, F.fin 0) [.SetOffset (F.fin 7) (F.fin 8)]
      = .done (F.fin 7, F.fin 8) [] := by
  have h3 : transform envNoWin.tanF envNoWin.camera envNoWin.window .ScreenSpace0
      (F.fin 0) (F.fin 0) (F.fin 0) = some (F.fin 0, F.fin 0) := by
    norm_num [transform, envNoWin, window_size, window_resolution, F.mul, F.div]
  exact ⟨rfl, h3,
    (claim_C4_offset_carries_over envNoWin envNoWin (F.fin 0, F.fin 0)
      (F.fin 7) (F.fin 8) [] (F.fin 0) (F.fin 0) (F.fin 0) .ScreenSpace0 0 0
      rfl rfl h3).1⟩

/-- Claim C10: a `Text` whose transformed position is non-finite is skipped
before the pending offset is applied or reset, so the offset set by a
preceding `SetOffset` stays pending and is applied to the next `Text` with a
finite position — here one processed in a later frame. -/
theorem claim_C10_skipped_text_leaves_offset_pending (e e2 : Env) (off : F × F)
    (a b : F) (t1 t2 : List ℕ) (x1 y1 z1 x2 y2 z2 : F)
    (m1 m2 : EzDrawTextCoordMode) (p q : F) (u v : ℚ)
    (hr : e.rendMan = true) (hr2 : e2.rendMan = true)
    (h1 : transform e.tanF e.camera e.window m1 x1 y1 z1 = some (p, q))
    (hnf : p.isFinite = false ∨ q.isFinite = false)
    (h2 : transform e2.tanF e2.camera e2.window m2 x2 y2 z2
      = some (F.fin u, F.fin v)) :
    render e off [.SetOffset a b, .Text t1 x1 y1 z1 m1] = .done (a, b) [] ∧
    render e2 (a, b) [.Text t2 x2 y2 z2 m2]
      = .done (F.fin 0, F.fin 0) [⟨t2, ((F.fin u).add a, (F.fin v).add b)⟩] := by
  constructor
  · rcases hnf with h' | h' <;> simp [render, hr, drain, step, h1, h']
  · simp [render, hr2, drain, step, h2, F.isFinite]

theorem claim_C10_witness :
    F.nan.isFinite = false ∧
    transform envCam.tanF envCam.camera envCam.window .HavokPosition2
        (F.fin 0) (F.fin 0) (F.fin (-1)) = some (F.nan, F.nan) ∧
    render envCam (F.fin 1, F.fin 2)
        [.SetOffset (F.fin 3) (F.fin 4),
         .Text [] (F.fin 0) (F.fin 0) (F.fin (-1)) .HavokPosition2]
      = .done (F.fin 3, F.fin 4) [] ∧
    render envNoWin (F.fin 3, F.fin 4)
        [.Text [66] (F.fin 0) (F.fin 0) (F.fin 0) .ScreenSpace0]
      = .done (F.fin 0, F.fin 0)
          [⟨[66], ((F.fin 0).add (F.fin 3), (F.fin 0).add (F.fin 4))⟩] := by
  have h1 : transform envCam.tanF envCam.camera envCam.window .HavokPosition2
      (F.fin 0) (F.fin 0) (F.fin (-1)) = some (F.nan, F.nan) := by
    norm_num [transform, envCam, worldProject, zCam, dot3, camBasic, F.sub,
      F.neg, F.add, F.mul, F.le0]
  have h2 : transform envNoWin.tanF envNoWin.camera envNoWin.window .ScreenSpace0
      (F.fin 0) (F.fin 0) (F.fin 0) = some (F.fin 0, F.fin 0) := by
    norm_num [transform, envNoWin, window_size, window_resolution, F.mul, F.div]
  have hmain := claim_C10_skipped_text_leaves_offset_pending envCam envNoWin
    (F.fin 1, F.fin 2) (F.fin 3) (F.fin 4) [] [66] (F.fin 0) (F.fin 0)
    (F.fin (-1)) (F.fin 0) (F.fin 0) (F.fin 0) .HavokPosition2 .ScreenSpace0
    F.nan F.nan 0 0 rfl rfl h1 (Or.inl rfl) h2
  exact ⟨rfl, h1, hmain.1, hmain.2⟩

/-- Claim C7: for every null-terminated wide-character buffer, text decoding
returns the UTF-16 decoding of the units strictly before the first null when
that decoding is valid, and returns the fixed placeholder `"?EncodingError?"`
on any encoding error; it is total (never fails) and never returns a partial
decode. -/
theorem claim_C7_decode_contract (mem : ℕ → ℕ) (n : ℕ) (h0 : mem n = 0)
    (hmin : ∀ i, i < n → mem i ≠ 0) :
    u16_ptr_to_string mem ⟨n, h0⟩
      = (utf16Decode ((List.range n).map mem)).getD encodingErrorPlaceholder ∧
    (∀ cps, utf16Decode ((List.range n).map mem) = some cps →
      u16_ptr_to_string mem ⟨n, h0⟩ = cps) ∧
    (utf16Decode ((List.range n).map mem) = none →
      u16_ptr_to_string mem ⟨n, h0⟩ = encodingErrorPlaceholder) := by
  have hfind : Nat.find (⟨n, h0⟩ : ∃ i, mem i = 0) = n := by
    rw [Nat.find_eq_iff]
    exact ⟨h0, fun m hm => hmin m hm⟩
  have key : u16_ptr_to_string mem ⟨n, h0⟩
      = (utf16Decode ((List.range n).map mem)).getD encodingErrorPlaceholder := by
    simp only [u16_ptr_to_string, hfind]
  refine ⟨key, ?_, ?_⟩
  · intro cps hc
    rw [key, hc, Option.getD_some]
  · intro hc
    rw [key, hc, Option.getD_none]

theorem claim_C7_witness :
    utf16Decode ((List.range 1).map fun i => if i = 0 then 65 else 0)
      = some [65] ∧
    u16_ptr_to_string (fun i => if i = 0 then 65 else 0) ⟨1, rfl⟩ = [65] ∧
    utf16Decode ((List.range 1).map fun i => if i = 0 then 55296 else 0)
      = none ∧
    u16_ptr_to_string (fun i => if i = 0 then 55296 else 0) ⟨1, rfl⟩
      = encodingErrorPlaceholder := by
  have hval : utf16Decode ((List.range 1).map fun i => if i = 0 then 65 else 0)
      = some [65] := by decide
  have herr : utf16Decode ((List.range 1).map fun i => if i = 0 then 55296 else 0)
      = none := by decide
  exact ⟨hval,
    (claim_C7_decode_contract (fun i => if i = 0 then 65 else 0) 1 rfl
      (by decide)).2.1 [65] hval,
    herr,
    (claim_C7_decode_contract (fun i => if i = 0 then 55296 else 0) 1 rfl
      (by decide)).2.2 herr⟩

/-- Claim C8: the command queue has fixed capacity `1024 * 10 = 10240`; a
force-push never fails — it preserves the capacity bound by evicting an
existing (the oldest) entry when full, and the pushed command is always
present afterwards — and pop returns `none` exactly on the empty queue.
(The queue itself is the external `crossbeam` `ArrayQueue`; its documented
sequential contract is what is modelled.) -/
theorem claim_C8_queue_contract (q : List DrawCommand) (c : DrawCommand)
    (hq : q.length ≤ queueCapacity) :
    queueCapacity = 10240 ∧
    (force_push q c).length ≤ queueCapacity ∧
    c ∈ force_push q c ∧
    (queue_pop q = none ↔ q = []) := by
  refine ⟨rfl, ?_, ?_, ?_⟩
  · rw [force_push]; split_ifs with h
    · simpa using h
    · have hq' : q.length = queueCapacity := le_antisymm hq (not_lt.mp h)
      have : q.tail.length = q.length - 1 := q.length_tail
      simp only [List.length_append, List.length_singleton, this, hq']
      simp [queueCapacity]
  · rw [force_push]; split_ifs <;> simp
  · cases q <;> simp [queue_pop]

theorem claim_C8_witness :
    (([] : List DrawCommand).length ≤ queueCapacity) ∧
    (queueCapacity = 10240 ∧
     (force_push [] (.SetOffset (F.fin 0) (F.fin 0))).length ≤ queueCapacity ∧
     (DrawCommand.SetOffset (F.fin 0) (F.fin 0))
        ∈ force_push [] (.SetOffset (F.fin 0) (F.fin 0)) ∧
     (queue_pop [] = none ↔ ([] : List DrawCommand) = [])) :=
  ⟨by simp, claim_C8_queue_contract [] _ (by simp)⟩

/-- Claim C9: the `NativeScreen` (`ScreenSpace0/1`) transform is linear per
axis: the output is exactly `(x * physW/logW, y * physH/logH)`, so doubling
the input doubles the output along each axis (2:1 ratio). -/
theorem claim_C9_native_screen_linear (tanF : ℚ → ℚ) (cam? : Option CSPersCam)
    (win : Option CSWindowImp) (x y : ℚ) (z : F) (mode : EzDrawTextCoordMode)
    (hm : mode = .ScreenSpace0 ∨ mode = .ScreenSpace1)
    (h1 : (window_resolution win).1 ≠ 0) (h2 : (window_resolution win).2 ≠ 0) :
    transform tanF cam? win mode (F.fin x) (F.fin y) z
      = some (F.fin (x * ((window_size win).1 / (window_resolution win).1)),
              F.fin (y * ((window_size win).2 / (window_resolution win).2))) ∧
    transform tanF cam? win mode (F.fin (2 * x)) (F.fin (2 * y)) z
      = some (F.fin (2 * (x * ((window_size win).1 / (window_resolution win).1))),
              F.fin (2 * (y * ((window_size win).2 / (window_resolution win).2)))) := by
  rcases hm with hm | hm <;> subst hm <;>
    refine ⟨by simp [transform, F.div, F.mul, h1, h2], ?_⟩ <;>
    · simp [transform, F.div, F.mul, h1, h2]
      constructor <;> ring

theorem claim_C9_witness :
    ((window_resolution win1000).1 ≠ 0) ∧
    ((window_resolution win1000).2 ≠ 0) ∧
    transform (fun q => q) none win1000 .ScreenSpace0
        (F.fin 3) (F.fin 4) (F.fin 0)
      = some (F.fin (3 * ((window_size win1000).1 / (window_resolution win1000).1)),
              F.fin (4 * ((window_size win1000).2 / (window_resolution win1000).2))) := by
  have h1 : (window_resolution win1000).1 ≠ 0 := by
    norm_num [window_resolution, win1000]
  have h2 : (window_resolution win1000).2 ≠ 0 := by
    norm_num [window_resolution, win1000]
  exact ⟨h1, h2,
    (claim_C9_native_screen_linear (fun q => q) none win1000 3 4 (F.fin 0)
      .ScreenSpace0 (Or.inl rfl) h1 h2).1⟩
